import Mathlib

/-!
# Verification of the RL sandbox / robotic-arm core

Shallow embedding of the reinforcement-learning playground of this
repository: the physics / inverse-kinematics component
(`src/components/RoboticArm.tsx`, first, active document) and the
policy-gradient / PPO training component (`src/pages/Experiments.tsx`,
the active implementation with the 8 → 64 → 64 → 2 network, Adam and
PPO batching).  JavaScript numbers are modelled by `ℝ` (and by `ℚ`
where the embedded code is purely arithmetical), Gaussian draws and
`Math.random()` calls are passed in as explicit parameters, and the
mutable refs of the component are gathered into explicit state records
that the embedded functions transform.
-/

open Real

namespace Portfolio

/-- The two selectable training algorithms (`type Policy = 'pg' | 'ppo'`). -/
inductive Policy
  | pg
  | ppo
deriving DecidableEq, Repr

/-- Episode outcomes (`type EpisodeResult = 'goal' | 'miss'`). -/
inductive EpisodeResult
  | goal
  | miss
deriving DecidableEq, Repr

/-! ## Ball physics (RoboticArm.tsx, exact rational fragment)

The wall-collision handling and the episode reset of `updatePhysics` /
`resetEpisode` only use field arithmetic, `min` and comparisons, so they
are embedded over `ℚ` and stay executable. -/

/-- The mutable ball record of `phys.current.ball`. -/
structure BallQ where
  x : ℚ
  y : ℚ
  vx : ℚ
  vy : ℚ
  radius : ℚ
  active : Bool
deriving DecidableEq, Repr

/-- The wall-collision handling of `updatePhysics`
(`RoboticArm.tsx` lines 177–179): when the ball overlaps the left or the
right wall, `vx *= -0.85`.  The source has no other wall branch: the
position is not clamped, and `y` / `vy` are never touched (there is no
top-wall case; the bottom is the `miss` terminal check instead). -/
def wallCollide (width : ℚ) (b : BallQ) : BallQ :=
  if b.x - b.radius < 0 ∨ b.x + b.radius > width then
    { b with vx := b.vx * (-0.85) }
  else b

/-- The physics state touched by `resetEpisode` (`phys.current`):
viewport size, IK target and ball. -/
structure PhysQ where
  width : ℚ
  height : ℚ
  targetX : ℚ
  targetY : ℚ
  ball : BallQ
deriving DecidableEq, Repr

/-- `resetEpisode` (`RoboticArm.tsx` lines 46–55).  The three
`Math.random()` draws are the parameters `r1 r2 r3` (each in `[0,1)`).
The source applies this unconditionally: there is no guard on the
viewport being sized. -/
def resetEpisode (r1 r2 r3 : ℚ) (p : PhysQ) : PhysQ :=
  { p with
    ball := { x := p.width / 2 + (r1 * 180 - 90)
              y := min (p.height / 2 - 40) 260
              vx := (r2 - 0.5) * 6
              vy := (r3 - 0.5) * 4
              radius := p.ball.radius
              active := true }
    targetX := p.width / 2
    targetY := p.height / 2 }

/-! ## Discounted returns (Experiments.tsx `finishEpisode`) -/

/-- The backward discounted-return loop of `finishEpisode`
(`Experiments.tsx` lines 560–565): `G = 0`, then from the last step to
the first `G = r_i + γ·G`, recording each value.  Stated over any
commutative ring so it can be used both exactly (`ℚ`) and inside the
real-valued training update. -/
def computeReturns {R : Type} [CommRing R] (gamma : R) : List R → List R
  | [] => []
  | r :: rest =>
    let tail := computeReturns gamma rest
    (r + gamma * tail.headD 0) :: tail

/-! ## Policy network and learning update (Experiments.tsx, real-valued) -/

noncomputable section
open Classical

/-- `clamp(v, lo, hi) = Math.max(lo, Math.min(hi, v))` (`Experiments.tsx`
line 339). -/
def clamp (v lo hi : ℝ) : ℝ := max lo (min hi v)

/-- `normalSample(std)` (`Experiments.tsx` lines 341–345) with the two
`Math.random()` draws passed as `u` and `v`:
`sqrt(-2 ln (max u 1e-10)) · cos(2π · max v 1e-10) · std`. -/
def normalSample (u v std : ℝ) : ℝ :=
  Real.sqrt (-2.0 * Real.log (max u 1e-10)) * Real.cos (2.0 * π * max v 1e-10) * std

/-- The ball sub-record of a physics snapshot (`PhysicsState.ball`). -/
structure BallR where
  x : ℝ
  y : ℝ
  vx : ℝ
  vy : ℝ
  radius : ℝ

/-- A 2-D point (`PhysicsState.effector`). -/
structure PointR where
  x : ℝ
  y : ℝ

/-- The goal rectangle (`PhysicsState.goal`). -/
structure GoalR where
  x : ℝ
  y : ℝ
  width : ℝ
  height : ℝ

/-- The viewport (`PhysicsState.viewport`). -/
structure ViewportR where
  width : ℝ
  height : ℝ

/-- The per-tick snapshot handed to `onGetAction`
(`export type PhysicsState` in `RoboticArm.tsx`). -/
structure PhysicsState where
  ball : BallR
  effector : PointR
  goal : GoalR
  viewport : ViewportR

/-- `buildState` (`Experiments.tsx` lines 463–475): the 8-component
normalised feature vector. -/
def buildState (frame : PhysicsState) : Fin 8 → ℝ :=
  let width := frame.viewport.width
  let height := frame.viewport.height
  ![(frame.ball.x - width / 2) / width,
    (frame.ball.y - height / 2) / height,
    frame.ball.vx / 20,
    frame.ball.vy / 20,
    (frame.goal.x + frame.goal.width / 2 - width / 2) / width,
    (frame.goal.y + frame.goal.height / 2 - height / 2) / height,
    (frame.effector.x - width / 2) / width,
    (frame.effector.y - height / 2) / height]

/-- The network parameters (`createWeights`, `Experiments.tsx` lines
351–358): layers 8 → 64 → 64 → 2.  The source stores each weight matrix
as a flat array indexed `w[i * fanIn + j]`; here the same data is a
function of the pair `(i, j)`. -/
structure Net where
  w1 : Fin 64 × Fin 8 → ℝ
  b1 : Fin 64 → ℝ
  w2 : Fin 64 × Fin 64 → ℝ
  b2 : Fin 64 → ℝ
  w3 : Fin 2 × Fin 64 → ℝ
  b3 : Fin 2 → ℝ

/-- The activations returned by `forward`: both hidden layers (kept for
backpropagation) and the output mean. -/
structure Activations where
  h1 : Fin 64 → ℝ
  h2 : Fin 64 → ℝ
  mean : Fin 2 → ℝ

/-- `forward` (`Experiments.tsx` lines 489–514): two tanh hidden layers
and a linear output read as the Gaussian mean. -/
def forward (W : Net) (s : Fin 8 → ℝ) : Activations :=
  let h1 : Fin 64 → ℝ := fun i => Real.tanh (W.b1 i + ∑ j, s j * W.w1 (i, j))
  let h2 : Fin 64 → ℝ := fun i => Real.tanh (W.b2 i + ∑ j, h1 j * W.w2 (i, j))
  let mean : Fin 2 → ℝ := fun i => W.b3 i + ∑ j, h2 j * W.w3 (i, j)
  ⟨h1, h2, mean⟩

/-- `gaussianLogProb` (`Experiments.tsx` lines 517–522): diagonal
Gaussian log-density with shared standard deviation. -/
def gaussianLogProb (a m : Fin 2 → ℝ) (std : ℝ) : ℝ :=
  let inv2v := 1 / (2 * std * std);
  let dx := a 0 - m 0;
  let dy := a 1 - m 1;
  -(dx * dx + dy * dy) * inv2v - Real.log (std * std * 2 * π)

/-- The action delta returned by `onGetAction` (`Experiments.tsx` lines
710–729): build the state, run the network, add Gaussian exploration
noise (`sampleAction`, lines 525–532; the four uniform draws are
`u1 v1 u2 v2`), then squash each component through `tanh` and scale by
15 pixels. -/
def onGetActionDelta (W : Net) (std u1 v1 u2 v2 : ℝ) (frame : PhysicsState) : ℝ × ℝ :=
  let s := buildState frame
  let mean := (forward W s).mean
  let ax := mean 0 + normalSample u1 v1 std
  let ay := mean 1 + normalSample u2 v2 std
  (Real.tanh ax * 15, Real.tanh ay * 15)

/-- One buffered step (`type StepRecord`). -/
structure Step where
  state : Fin 8 → ℝ
  action : Fin 2 → ℝ
  logProb : ℝ
  reward : ℝ
  value : ℝ

/-- The gradient-scale selection of `finishEpisode` (`Experiments.tsx`
lines 620–635).  `none` models the `continue` statement (the clipped
surrogate is flat, so the sample contributes zero gradient); in plain
policy-gradient mode the source sets `gradScale = 1` ("Plain REINFORCE
(on-policy)"). -/
def gradScaleOf (pol : Policy) (ratio adv clip : ℝ) : Option ℝ :=
  match pol with
  | .ppo =>
    let clippedRatio := clamp ratio (1 - clip) (1 + clip)
    let useUnclipped := if 0 ≤ adv then ratio ≤ clippedRatio else clippedRatio ≤ ratio
    if useUnclipped then some ratio
    else if ratio < 1 - clip ∨ 1 + clip < ratio then none
    else some ratio
  | .pg => some 1

/-- The gradient on the output means for one buffered step
(`Experiments.tsx` lines 614–641): re-run the forward pass, recompute the
log-probability, form the importance ratio `exp(newLogP − oldLogP)`,
select the gradient scale, and return
`gradScale · adv · (action − mean) · invVar` (or `none` on `continue`). -/
def dMeanOf (pol : Policy) (clip std adv : ℝ) (st : Step) (W : Net) : Option (Fin 2 → ℝ) :=
  let acts := forward W st.state
  let newLogP := gaussianLogProb st.action acts.mean std
  let ratio := Real.exp (newLogP - st.logProb)
  (gradScaleOf pol ratio adv clip).map fun gs =>
    fun out => gs * adv * (st.action out - acts.mean out) * (1 / (std * std))

/-- All-zero gradient accumulators (`new Float32Array(...).fill(0)`,
reusing the `Net` shape). -/
def zeroNet : Net :=
  ⟨fun _ => 0, fun _ => 0, fun _ => 0, fun _ => 0, fun _ => 0, fun _ => 0⟩

/-- Pointwise sum of two gradient accumulators (the `+=` accumulation in
the batch loop). -/
def addNet (a b : Net) : Net :=
  ⟨fun i => a.w1 i + b.w1 i, fun i => a.b1 i + b.b1 i,
   fun i => a.w2 i + b.w2 i, fun i => a.b2 i + b.b2 i,
   fun i => a.w3 i + b.w3 i, fun i => a.b3 i + b.b3 i⟩

/-- The full backpropagated gradient contribution of one buffered step
(`Experiments.tsx` lines 637–672): output layer, hidden layer 2 and
hidden layer 1, with tanh derivatives `1 − h²`. -/
def stepGrad (pol : Policy) (clip std adv : ℝ) (st : Step) (W : Net) : Net :=
  match dMeanOf pol clip std adv st W with
  | none => zeroNet
  | some dMean =>
    let acts := forward W st.state
    let dh2 : Fin 64 → ℝ := fun j =>
      (∑ out, dMean out * W.w3 (out, j)) * (1 - acts.h2 j * acts.h2 j)
    let dh1 : Fin 64 → ℝ := fun k =>
      (∑ j, dh2 j * W.w2 (j, k)) * (1 - acts.h1 k * acts.h1 k)
    { w1 := fun p => dh1 p.1 * st.state p.2
      b1 := dh1
      w2 := fun p => dh2 p.1 * acts.h1 p.2
      b2 := dh2
      w3 := fun p => dMean p.1 * acts.h2 p.2
      b3 := dMean }

/-- Gradients accumulated over the whole (flattened) batch before the
Adam step (`Experiments.tsx` lines 596–674). -/
def batchGrads (pol : Policy) (clip std : ℝ) (W : Net) (steps : List (Step × ℝ)) : Net :=
  steps.foldl (fun acc p => addNet acc (stepGrad pol clip std p.2 p.1 W)) zeroNet

/-- Adam optimiser state (`createAdamState`, `Experiments.tsx` lines
361–375): first/second moment accumulators mirroring every parameter
array, plus the global step counter `t`. -/
structure Adam where
  m : Net
  v : Net
  t : ℕ

/-- One coordinate of `adamStep` (`Experiments.tsx` lines 382–398), with
`β1 = 0.9`, `β2 = 0.999`, `ε = 1e-8`: returns the new weight and both
updated moments.  Note the source ascends (`+=`), matching a gradient
that maximises the surrogate objective. -/
def adamCoord (lr : ℝ) (t : ℕ) (w g m v : ℝ) : ℝ × ℝ × ℝ :=
  let bc1 := 1 - (0.9 : ℝ) ^ t
  let bc2 := 1 - (0.999 : ℝ) ^ t
  let m' := 0.9 * m + (1 - 0.9) * g
  let v' := 0.999 * v + (1 - 0.999) * g * g
  (w + lr * (m' / bc1) / (Real.sqrt (v' / bc2) + 1e-8), m', v')

/-- `adamStep` on a whole parameter array. -/
def adamArr {ι : Type} (lr : ℝ) (t : ℕ) (w g m v : ι → ℝ) :
    (ι → ℝ) × (ι → ℝ) × (ι → ℝ) :=
  (fun i => (adamCoord lr t (w i) (g i) (m i) (v i)).1,
   fun i => (adamCoord lr t (w i) (g i) (m i) (v i)).2.1,
   fun i => (adamCoord lr t (w i) (g i) (m i) (v i)).2.2)

/-- One optimisation epoch (`Experiments.tsx` lines 595–684): accumulate
gradients over the full batch, bump `t`, then apply one Adam step to each
of the six parameter arrays. -/
def epochStep (pol : Policy) (clip std lr : ℝ) (steps : List (Step × ℝ))
    (p : Net × Adam) : Net × Adam :=
  let g := batchGrads pol clip std p.1 steps
  let t' := p.2.t + 1
  let u1 := adamArr lr t' p.1.w1 g.w1 p.2.m.w1 p.2.v.w1
  let ub1 := adamArr lr t' p.1.b1 g.b1 p.2.m.b1 p.2.v.b1
  let u2 := adamArr lr t' p.1.w2 g.w2 p.2.m.w2 p.2.v.w2
  let ub2 := adamArr lr t' p.1.b2 g.b2 p.2.m.b2 p.2.v.b2
  let u3 := adamArr lr t' p.1.w3 g.w3 p.2.m.w3 p.2.v.w3
  let ub3 := adamArr lr t' p.1.b3 g.b3 p.2.m.b3 p.2.v.b3
  (⟨u1.1, ub1.1, u2.1, ub2.1, u3.1, ub3.1⟩,
   ⟨⟨u1.2.1, ub1.2.1, u2.2.1, ub2.2.1, u3.2.1, ub3.2.1⟩,
    ⟨u1.2.2, ub1.2.2, u2.2.2, ub2.2.2, u3.2.2, ub3.2.2⟩, t'⟩)

/-- The full training update of `finishEpisode` once a batch is ready
(`Experiments.tsx` lines 552–684): discounted returns per trajectory,
running-baseline update, batch-wide advantage normalisation, then 4
epochs (PPO) or 1 epoch (plain PG) of accumulated-gradient Adam steps
with `lr = 3e-4`, `clip = 0.2`.  Returns the new weights, optimiser
state and baseline. -/
def trainUpdate (pol : Policy) (trainBatch : List (List Step)) (W0 : Net)
    (opt0 : Adam) (baseline std : ℝ) : Net × Adam × ℝ :=
  let returnsPerTraj := trainBatch.map fun t => computeReturns (0.99 : ℝ) (t.map Step.reward)
  let allReturns := returnsPerTraj.flatten
  let batchMean := allReturns.sum / max 1 (allReturns.length : ℝ)
  let baseline' := 0.95 * baseline + 0.05 * batchMean
  let rawAdvs := allReturns.map fun r => r - baseline'
  let advMu := rawAdvs.sum / max 1 (rawAdvs.length : ℝ)
  let advSig :=
    Real.sqrt ((rawAdvs.map fun b => (b - advMu) ^ 2).sum / max 1 (rawAdvs.length : ℝ)) + 1e-8
  let normAdvs := rawAdvs.map fun r => (r - advMu) / advSig
  let stepsWithAdv := trainBatch.flatten.zip normAdvs
  let epochs := if pol = Policy.ppo then 4 else 1
  let final := (epochStep pol 0.2 std (3e-4) stepsWithAdv)^[epochs] (W0, opt0)
  (final.1, final.2, baseline')

/-- The terminal reward bump (`result === 'goal' ? 1 : -1`). -/
def terminalReward (result : EpisodeResult) : ℝ :=
  if result = EpisodeResult.goal then 1 else -1

/-- `traj[traj.length - 1].reward += r` — add `r` to the last step's
reward. -/
def bumpLast : List Step → ℝ → List Step
  | [], _ => []
  | [x], r => [{ x with reward := x.reward + r }]
  | x :: xs, r => x :: bumpLast xs r

/-- The mutable refs of the training component gathered into one record:
`trajectoryRef`, `batchTrajRef`, `batchEpisodesRef`, `weightsRef`,
`adamRef`, `baselineRef`, `stdRef`. -/
structure TrainState where
  trajectory : List Step
  batch : List (List Step)
  batchEpisodes : ℕ
  weights : Net
  adam : Adam
  baseline : ℝ
  std : ℝ

/-- `finishEpisode` (`Experiments.tsx` lines 535–693).  Empty
trajectories are a no-op; otherwise the terminal reward is applied, the
trajectory is appended to the batch, and — unless PPO is still
accumulating its 4-episode mini-batch — the training update runs,
buffers are cleared and the exploration std decays (`0.9995` per update
for PPO, `0.998` for plain PG, floored at `0.08`). -/
def finishEpisode (pol : Policy) (result : EpisodeResult) (s : TrainState) : TrainState :=
  if s.trajectory.length = 0 then s
  else
    let traj := bumpLast s.trajectory (terminalReward result)
    let batch' := s.batch ++ [traj]
    let be' := s.batchEpisodes + 1
    if pol = Policy.ppo ∧ be' < 4 then
      { s with trajectory := [], batch := batch', batchEpisodes := be' }
    else
      let trainBatch := if pol = Policy.ppo then batch' else [traj]
      let u := trainUpdate pol trainBatch s.weights s.adam s.baseline s.std
      { trajectory := []
        batch := []
        batchEpisodes := 0
        weights := u.1
        adam := u.2.1
        baseline := u.2.2
        std := max 0.08 (s.std * (if pol = Policy.ppo then 0.9995 else 0.998)) }

/-- The component state seen by `handlePolicySwitch`: the selected
policy, the running flag and the training refs. -/
structure AppState where
  policy : Policy
  isRunning : Bool
  train : TrainState

/-- `handlePolicySwitch` (`Experiments.tsx` lines 448–460): ignore a
no-change click; otherwise select the new policy and, when training is
running, flush the trajectory and batch buffers, zero the batch episode
counter and reset the baseline to 0. -/
def handlePolicySwitch (next : Policy) (s : AppState) : AppState :=
  if next = s.policy then s
  else
    { policy := next
      isRunning := s.isRunning
      train :=
        if s.isRunning then
          { s.train with trajectory := [], batch := [], batchEpisodes := 0, baseline := 0 }
        else s.train }

/-! ## Inverse kinematics (RoboticArm.tsx `solveIK` / forward kinematics) -/

/-- Upper-arm link length `l1 = 280` (`phys.current.l1`). -/
def armL1 : ℝ := 280

/-- Forearm link length `l2 = 260` (`phys.current.l2`). -/
def armL2 : ℝ := 260

/-- `maxReach = l1 + l2 - 2 = 538` (`solveIK`, line 97). -/
def maxReach : ℝ := armL1 + armL2 - 2

/-- JavaScript `Math.atan2(y, x)`: the argument of the complex number
`x + y·i`, in `(-π, π]`. -/
def atan2 (y x : ℝ) : ℝ := Complex.arg ⟨x, y⟩

/-- The clamped elbow-to-base cosine
`Math.max(-1, Math.min(1, (dist² + l1² - l2²)/(2·dist·l1)))`
(`solveIK`, lines 107–108).  At `dist = 0` the JavaScript division
yields `+∞` (the numerator `l1² - l2² = 10800` is positive), which the
clamp maps to `1`; the `dist = 0` branch below encodes that value
directly since Lean's real division by zero would give `0` instead. -/
def cosBetaClamped (dist : ℝ) : ℝ :=
  if dist = 0 then 1
  else clamp ((dist * dist + armL1 * armL1 - armL2 * armL2) / (2 * dist * armL1)) (-1) 1

/-- The clamped interior-elbow cosine
`Math.max(-1, Math.min(1, (l1² + l2² - dist²)/(2·l1·l2)))`
(`solveIK`, lines 110–111). -/
def cosGammaClamped (dist : ℝ) : ℝ :=
  clamp ((armL1 * armL1 + armL2 * armL2 - dist * dist) / (2 * armL1 * armL2)) (-1) 1

/-- The angle pair computed by `solveIK` from the (possibly reach-clamped)
offset `(dx, dy)` and its length `dist`:
`θ1 = atan2(dy, dx) - acos(cosBeta)`, `θ2 = π - acos(cosGamma)`. -/
def ikAngles (dx dy dist : ℝ) : ℝ × ℝ :=
  (atan2 dy dx - Real.arccos (cosBetaClamped dist), π - Real.arccos (cosGammaClamped dist))

/-- `solveIK(tx, ty)` (`RoboticArm.tsx` lines 90–114).  The arm base is
`(width/2, height)`; when the target lies beyond `maxReach` the offset is
scaled back onto the reach circle (`dist` is then set to `maxReach`
directly, as in the source). -/
def solveIK (width height tx ty : ℝ) : ℝ × ℝ :=
  let dx := tx - width / 2
  let dy := ty - height
  let dist := Real.sqrt (dx * dx + dy * dy)
  if dist > maxReach then
    ikAngles (dx * (maxReach / dist)) (dy * (maxReach / dist)) maxReach
  else
    ikAngles dx dy dist

/-- The distance value that reaches the law-of-cosines formulas inside
`solveIK` (the `dist` variable after the reach-clamp branch). -/
def distUsed (width height tx ty : ℝ) : ℝ :=
  let dx := tx - width / 2
  let dy := ty - height
  let dist := Real.sqrt (dx * dx + dy * dy)
  if dist > maxReach then maxReach else dist

/-- Forward kinematics of the two-link arm (`updatePhysics`, lines
119–124): `base + l1·(cos θ1, sin θ1) + l2·(cos(θ1+θ2), sin(θ1+θ2))`. -/
def fk (width height t1 t2 : ℝ) : ℝ × ℝ :=
  (width / 2 + Real.cos t1 * armL1 + Real.cos (t1 + t2) * armL2,
   height + Real.sin t1 * armL1 + Real.sin (t1 + t2) * armL2)

/-- The raw distance of a target from the arm base. -/
def rawDist (width height tx ty : ℝ) : ℝ :=
  Real.sqrt ((tx - width / 2) * (tx - width / 2) + (ty - height) * (ty - height))

/-! ## Concrete example states used by the witnesses -/

/-- A concrete buffered step (all-zero features). -/
def exStep : Step := ⟨fun _ => 0, fun _ => 0, 0, 0, 0⟩

/-- A fresh Adam state (`createAdamState()`). -/
def exAdam : Adam := ⟨zeroNet, zeroNet, 0⟩

/-- A concrete training state holding one finished step and an empty
batch, as right after the first episode's first tick. -/
def exTrain : TrainState := ⟨[exStep], [], 0, zeroNet, exAdam, 0, 0.6⟩

/-- A concrete component state: PPO selected and training running. -/
def exApp : AppState := ⟨Policy.ppo, true, exTrain⟩

/-- The pre-resize physics state (`phys.current` initial value): the
viewport is not yet sized (`width = height = 0`). -/
def p0 : PhysQ := ⟨0, 0, 0, 0, ⟨0, 0, 0, 0, 28, false⟩⟩

end

/-! ## Helper lemmas -/

theorem clamp_eq_self {v lo hi : ℝ} (h1 : lo ≤ v) (h2 : v ≤ hi) : clamp v lo hi = v := by
  unfold clamp
  rw [min_eq_right h2, max_eq_right h1]

theorem clamp_le {v lo hi : ℝ} (h : lo ≤ hi) : clamp v lo hi ≤ hi :=
  max_le h (min_le_left _ _)

theorem le_clamp (v lo hi : ℝ) : lo ≤ clamp v lo hi :=
  le_max_left _ _

theorem abs_tanh_le_one (x : ℝ) : |Real.tanh x| ≤ 1 := by
  rw [Real.tanh_eq_sinh_div_cosh, abs_div, abs_of_pos (Real.cosh_pos x),
    div_le_one (Real.cosh_pos x)]
  nlinarith [Real.cosh_sq_sub_sinh_sq x, sq_abs (Real.sinh x), Real.cosh_pos x,
    abs_nonneg (Real.sinh x)]

theorem tanh_scale_bound (x : ℝ) : |Real.tanh x * 15| ≤ 15 := by
  rw [abs_mul]
  calc |Real.tanh x| * |(15 : ℝ)| ≤ 1 * |(15 : ℝ)| := by
        exact mul_le_mul_of_nonneg_right (abs_tanh_le_one x) (abs_nonneg _)
    _ = 15 := by norm_num

theorem computeReturns_length {R : Type} [CommRing R] (g : R) (rs : List R) :
    (computeReturns g rs).length = rs.length := by
  induction rs with
  | nil => rfl
  | cons r rest ih => simp [computeReturns, ih]

theorem computeReturns_getD {R : Type} [CommRing R] (g : R) (rs : List R) (i : ℕ)
    (h : i + 1 < rs.length) :
    (computeReturns g rs).getD i 0 = rs.getD i 0 + g * (computeReturns g rs).getD (i + 1) 0 := by
  induction rs generalizing i with
  | nil => simp at h
  | cons r rest ih =>
    cases i with
    | zero =>
      cases rest with
      | nil => simp at h
      | cons r2 rest2 => simp [computeReturns]
    | succ i =>
      have h2 : i + 1 < rest.length := by simpa using h
      simpa [computeReturns] using ih i h2

theorem computeReturns_getLast {R : Type} [CommRing R] (g : R) (rs : List R) (h : rs ≠ []) :
    (computeReturns g rs).getD (rs.length - 1) 0 = rs.getD (rs.length - 1) 0 := by
  induction rs with
  | nil => exact absurd rfl h
  | cons r rest ih =>
    cases rest with
    | nil => simp [computeReturns]
    | cons r2 rest2 =>
      have ih2 := ih (by simp)
      simpa [computeReturns] using ih2

/-! ## Claim theorems -/

/-- Claim C4: for every trajectory the discounted returns of `finishEpisode`
satisfy `G_t = r_t + γ·G_{t+1}` with `γ = 0.99`, the return of the final
step equals its reward, and a reward list `[r0, r1, r2]` produces exactly
`[r0 + γ(r1 + γ·r2), r1 + γ·r2, r2]` (exact over `ℚ`, hence within any
floating-point tolerance). -/
theorem returns_discount_recurrence (rs : List ℚ) (i : ℕ) (h : i + 1 < rs.length)
    (r0 r1 r2 : ℚ) :
    (computeReturns (99/100) rs).getD i 0
        = rs.getD i 0 + (99/100) * (computeReturns (99/100) rs).getD (i + 1) 0 ∧
    (computeReturns (99/100) rs).getD (rs.length - 1) 0 = rs.getD (rs.length - 1) 0 ∧
    computeReturns (99/100) [r0, r1, r2]
        = [r0 + (99/100) * (r1 + (99/100) * r2), r1 + (99/100) * r2, r2] := by
  refine ⟨computeReturns_getD _ rs i h, computeReturns_getLast _ rs ?_, ?_⟩
  · intro he
    rw [he] at h
    simp at h
  · simp [computeReturns]

theorem returns_discount_recurrence_witness :
    (0 : ℕ) + 1 < ([1, 2, 3] : List ℚ).length ∧
    ((computeReturns (99/100) ([1, 2, 3] : List ℚ)).getD 0 0
        = ([1, 2, 3] : List ℚ).getD 0 0
            + (99/100) * (computeReturns (99/100) ([1, 2, 3] : List ℚ)).getD (0 + 1) 0 ∧
      (computeReturns (99/100) ([1, 2, 3] : List ℚ)).getD (([1, 2, 3] : List ℚ).length - 1) 0
        = ([1, 2, 3] : List ℚ).getD (([1, 2, 3] : List ℚ).length - 1) 0 ∧
      computeReturns (99/100) [(1 : ℚ), 2, 3]
        = [1 + (99/100) * (2 + (99/100) * 3), 2 + (99/100) * 3, 3]) :=
  ⟨by decide, returns_discount_recurrence [1, 2, 3] 0 (by decide) 1 2 3⟩

/-- Claim C1 counterexample: in plain policy-gradient mode the gradient scale
is `1`, even for a sample whose importance ratio
`exp(newLogProb − oldLogProb)` is `2` — the scale is not the ratio. -/
theorem pg_gradScale_not_ratio :
    gradScaleOf Policy.pg (Real.exp (Real.log 2 - 0)) 1 0.2 = some 1 ∧
    Real.exp (Real.log 2 - 0) = 2 ∧ (1 : ℝ) ≠ 2 := by
  refine ⟨rfl, ?_, by norm_num⟩
  rw [sub_zero, Real.exp_log (by norm_num : (0 : ℝ) < 2)]

/-- Claim C1 (amended): in plain policy-gradient mode the gradient scale of
every buffered step is the constant `1` (pure on-policy REINFORCE), so
the gradient on the Gaussian mean is `1 · adv · (action − mean) / std²`
regardless of the importance ratio. -/
theorem pg_gradScale_one (ratio adv clip std : ℝ) (W : Net) (st : Step) :
    gradScaleOf Policy.pg ratio adv clip = some 1 ∧
    dMeanOf Policy.pg clip std adv st W =
      some (fun out =>
        1 * adv * (st.action out - (forward W st.state).mean out) * (1 / (std * std))) :=
  ⟨rfl, rfl⟩

/-- Claim C5: in PPO mode, when the recomputed log-probability equals the
stored one the importance ratio is `exp 0 = 1`, the clipped and
unclipped surrogate objectives coincide, and the selected gradient scale
is exactly `1`. -/
theorem ppo_ratio_one_degenerates (newLogP oldLogP adv : ℝ) (h : newLogP = oldLogP) :
    Real.exp (newLogP - oldLogP) = 1 ∧
    clamp (Real.exp (newLogP - oldLogP)) (1 - 0.2) (1 + 0.2) * adv
      = Real.exp (newLogP - oldLogP) * adv ∧
    gradScaleOf Policy.ppo (Real.exp (newLogP - oldLogP)) adv 0.2 = some 1 := by
  have h1 : Real.exp (newLogP - oldLogP) = 1 := by rw [h, sub_self, Real.exp_zero]
  have hc : clamp (1 : ℝ) (1 - 0.2) (1 + 0.2) = 1 :=
    clamp_eq_self (by norm_num) (by norm_num)
  refine ⟨h1, by rw [h1, hc], ?_⟩
  rw [h1]
  have hcond : (if 0 ≤ adv then (1 : ℝ) ≤ clamp 1 (1 - 0.2) (1 + 0.2)
      else clamp (1 : ℝ) (1 - 0.2) (1 + 0.2) ≤ 1) := by
    rw [hc]
    split <;> exact le_refl 1
  simp only [gradScaleOf, if_pos hcond]

theorem ppo_ratio_one_degenerates_witness :
    Real.exp ((0 : ℝ) - 0) = 1 ∧
    clamp (Real.exp ((0 : ℝ) - 0)) (1 - 0.2) (1 + 0.2) * 1
      = Real.exp ((0 : ℝ) - 0) * 1 ∧
    gradScaleOf Policy.ppo (Real.exp ((0 : ℝ) - 0)) 1 0.2 = some 1 :=
  ppo_ratio_one_degenerates 0 0 1 rfl

/-- Claim C6: switching the selected algorithm while training is running
clears the per-episode trajectory buffer and the batch buffers
(including the batch episode counter) and resets the baseline to 0. -/
theorem policySwitch_clears (next : Policy) (s : AppState)
    (hne : next ≠ s.policy) (hrun : s.isRunning = true) :
    (handlePolicySwitch next s).policy = next ∧
    (handlePolicySwitch next s).train.trajectory = [] ∧
    (handlePolicySwitch next s).train.batch = [] ∧
    (handlePolicySwitch next s).train.batchEpisodes = 0 ∧
    (handlePolicySwitch next s).train.baseline = 0 := by
  simp [handlePolicySwitch, hne, hrun]

theorem policySwitch_clears_witness :
    (handlePolicySwitch Policy.pg exApp).policy = Policy.pg ∧
    (handlePolicySwitch Policy.pg exApp).train.trajectory = [] ∧
    (handlePolicySwitch Policy.pg exApp).train.batch = [] ∧
    (handlePolicySwitch Policy.pg exApp).train.batchEpisodes = 0 ∧
    (handlePolicySwitch Policy.pg exApp).train.baseline = 0 :=
  policySwitch_clears Policy.pg exApp (by decide) rfl

/-- Claim C7: in PPO mode, when an episode ends and the batch still holds
fewer than 4 episodes, `finishEpisode` appends the reward-bumped
trajectory to the batch, clears the per-episode buffer, bumps the batch
episode counter and returns — weights, Adam state, baseline and
exploration std are untouched. -/
theorem finishEpisode_ppo_accumulates (result : EpisodeResult) (s : TrainState)
    (hne : s.trajectory.length ≠ 0) (hlt : s.batchEpisodes + 1 < 4) :
    finishEpisode Policy.ppo result s =
      { s with trajectory := []
               batch := s.batch ++ [bumpLast s.trajectory (terminalReward result)]
               batchEpisodes := s.batchEpisodes + 1 } := by
  unfold finishEpisode
  rw [if_neg hne, if_pos ⟨rfl, hlt⟩]

theorem finishEpisode_ppo_accumulates_witness :
    finishEpisode Policy.ppo EpisodeResult.miss exTrain =
      { exTrain with
          trajectory := []
          batch := exTrain.batch ++ [bumpLast exTrain.trajectory (terminalReward EpisodeResult.miss)]
          batchEpisodes := exTrain.batchEpisodes + 1 } :=
  finishEpisode_ppo_accumulates EpisodeResult.miss exTrain (by simp [exTrain])
    (by norm_num [exTrain])

/-- Claim C10: whatever the weights, exploration std, uniform draws and
physics snapshot, both components of the action delta returned by
`onGetAction` are bounded by 15 pixels in absolute value, because each
sampled action is squashed through `tanh` and scaled by 15. -/
theorem actionDelta_bounded (W : Net) (std u1 v1 u2 v2 : ℝ) (frame : PhysicsState) :
    |(onGetActionDelta W std u1 v1 u2 v2 frame).1| ≤ 15 ∧
    |(onGetActionDelta W std u1 v1 u2 v2 frame).2| ≤ 15 :=
  ⟨tanh_scale_bound _, tanh_scale_bound _⟩

/-- Claim C3 counterexample: a ball whose centre is already 50 px beyond the
left wall keeps that position through the wall-collision handling — only
`vx` is scaled by `-0.85`; the position is not brought back into
`[0, width]`. -/
theorem wallCollide_escapes :
    (wallCollide 1000 ⟨-50, 400, -10, 0, 28, true⟩).x = -50 ∧
    ¬ (0 ≤ (wallCollide 1000 ⟨-50, 400, -10, 0, 28, true⟩).x) := by
  constructor <;> norm_num [wallCollide]

/-- Claim C3 (amended): the wall handling of `updatePhysics` never changes the
ball's position, `vy` or radius (there is no position clamp and no
top-wall branch); on left/right overlap it only scales `vx` by `-0.85`,
and otherwise leaves the ball unchanged. -/
theorem wallCollide_frame (width : ℚ) (b : BallQ) :
    (wallCollide width b).x = b.x ∧
    (wallCollide width b).y = b.y ∧
    (wallCollide width b).vy = b.vy ∧
    (wallCollide width b).radius = b.radius ∧
    ((b.x - b.radius < 0 ∨ b.x + b.radius > width) →
      (wallCollide width b).vx = b.vx * (-0.85)) ∧
    (¬ (b.x - b.radius < 0 ∨ b.x + b.radius > width) →
      (wallCollide width b).vx = b.vx) := by
  unfold wallCollide
  split_ifs with h
  · exact ⟨rfl, rfl, rfl, rfl, fun _ => rfl, fun hc => absurd h hc⟩
  · exact ⟨rfl, rfl, rfl, rfl, fun hc => absurd hc h, fun _ => rfl⟩

theorem wallCollide_frame_witness :
    (wallCollide 1000 ⟨0, 400, -10, 0, 28, true⟩).vx = -10 * (-0.85) :=
  (wallCollide_frame 1000 ⟨0, 400, -10, 0, 28, true⟩).2.2.2.2.1 (by norm_num)

/-- Claim C9 counterexample: with an unsized viewport (`width = height = 0`)
`resetEpisode` is not a no-op — it moves the ball to `y = -40`, flips
`active` to `true` and recentres the target, changing the state. -/
theorem resetEpisode_not_noop :
    (resetEpisode (1/2) (1/2) (1/2) p0).ball.y = -40 ∧
    (resetEpisode (1/2) (1/2) (1/2) p0).ball.active = true ∧
    p0.ball.y = 0 ∧ p0.ball.active = false ∧
    resetEpisode (1/2) (1/2) (1/2) p0 ≠ p0 := by
  refine ⟨by norm_num [resetEpisode, p0, min_def], rfl, rfl, rfl, fun heq => ?_⟩
  have h2 := congrArg (fun s => s.ball.active) heq
  simp [resetEpisode, p0] at h2

/-- Claim C9 (amended): `resetEpisode` always reinitialises the ball and the
IK target, whatever the viewport: `active` is set, the target is
recentred, and with an unsized viewport (`width = height = 0`) the ball
is placed at `y = -40` and the target at the origin — there is no
viewport guard making it a no-op. -/
theorem resetEpisode_reinit (r1 r2 r3 : ℚ) (p : PhysQ) :
    (resetEpisode r1 r2 r3 p).ball.active = true ∧
    (resetEpisode r1 r2 r3 p).targetX = p.width / 2 ∧
    (resetEpisode r1 r2 r3 p).targetY = p.height / 2 ∧
    (p.width = 0 → p.height = 0 →
      (resetEpisode r1 r2 r3 p).ball.y = -40 ∧ (resetEpisode r1 r2 r3 p).targetX = 0) := by
  refine ⟨rfl, rfl, rfl, fun hw hh => ⟨?_, ?_⟩⟩
  · show min (p.height / 2 - 40) 260 = -40
    rw [hh]
    norm_num
  · show p.width / 2 = 0
    rw [hw]
    norm_num

/-! ### Kinematics helper lemmas -/

theorem solveIK_eq (w h tx ty : ℝ) :
    solveIK w h tx ty =
      if Real.sqrt ((tx - w / 2) * (tx - w / 2) + (ty - h) * (ty - h)) > maxReach then
        ikAngles
          ((tx - w / 2) * (maxReach / Real.sqrt ((tx - w / 2) * (tx - w / 2) + (ty - h) * (ty - h))))
          ((ty - h) * (maxReach / Real.sqrt ((tx - w / 2) * (tx - w / 2) + (ty - h) * (ty - h))))
          maxReach
      else
        ikAngles (tx - w / 2) (ty - h)
          (Real.sqrt ((tx - w / 2) * (tx - w / 2) + (ty - h) * (ty - h))) := rfl

theorem distUsed_eq (w h tx ty : ℝ) :
    distUsed w h tx ty =
      if Real.sqrt ((tx - w / 2) * (tx - w / 2) + (ty - h) * (ty - h)) > maxReach then maxReach
      else Real.sqrt ((tx - w / 2) * (tx - w / 2) + (ty - h) * (ty - h)) := rfl

theorem maxReach_val : maxReach = 538 := by norm_num [maxReach, armL1, armL2]

theorem cosBetaClamped_eq {d : ℝ} (h20 : 20 ≤ d) (h538 : d ≤ 538) :
    cosBetaClamped d = (d * d + 10800) / (560 * d) := by
  have hd0 : d ≠ 0 := by linarith
  have hdpos : (0 : ℝ) < d := by linarith
  unfold cosBetaClamped
  rw [if_neg hd0]
  have harg : (d * d + armL1 * armL1 - armL2 * armL2) / (2 * d * armL1)
      = (d * d + 10800) / (560 * d) := by
    unfold armL1 armL2
    ring_nf
  rw [harg]
  refine clamp_eq_self ?_ ?_
  · have hnum : (0 : ℝ) ≤ d * d + 10800 := by positivity
    have hden : (0 : ℝ) < 560 * d := by positivity
    have := div_nonneg hnum (le_of_lt hden)
    linarith
  · rw [div_le_one (by positivity)]
    nlinarith

theorem cosGammaClamped_eq {d : ℝ} (h20 : 20 ≤ d) (h538 : d ≤ 538) :
    cosGammaClamped d = (146000 - d * d) / 145600 := by
  unfold cosGammaClamped
  have harg : (armL1 * armL1 + armL2 * armL2 - d * d) / (2 * armL1 * armL2)
      = (146000 - d * d) / 145600 := by
    unfold armL1 armL2
    norm_num
  rw [harg]
  refine clamp_eq_self ?_ ?_
  · rw [le_div_iff₀ (by norm_num : (0:ℝ) < 145600)]
    nlinarith
  · rw [div_le_one (by norm_num : (0:ℝ) < 145600)]
    nlinarith

theorem ikAngles_fk (dx dy d : ℝ) (hd : d = Real.sqrt (dx * dx + dy * dy))
    (h20 : 20 ≤ d) (h538 : d ≤ 538) :
    Real.cos (ikAngles dx dy d).1 * armL1
        + Real.cos ((ikAngles dx dy d).1 + (ikAngles dx dy d).2) * armL2 = dx ∧
    Real.sin (ikAngles dx dy d).1 * armL1
        + Real.sin ((ikAngles dx dy d).1 + (ikAngles dx dy d).2) * armL2 = dy := by
  have hdpos : (0 : ℝ) < d := by linarith
  set cb : ℝ := (d * d + 10800) / (560 * d) with hcbdef
  set cg : ℝ := (146000 - d * d) / 145600 with hcgdef
  have hcbm1 : -1 ≤ cb := by
    rw [hcbdef]
    have : (0 : ℝ) ≤ (d * d + 10800) / (560 * d) := by positivity
    linarith
  have hcb1 : cb ≤ 1 := by
    rw [hcbdef, div_le_one (by positivity)]
    nlinarith
  have hcgm1 : -1 ≤ cg := by
    rw [hcgdef, le_div_iff₀ (by norm_num : (0:ℝ) < 145600)]
    nlinarith
  have hcg1 : cg ≤ 1 := by
    rw [hcgdef, div_le_one (by norm_num : (0:ℝ) < 145600)]
    nlinarith
  have h1cb : (0 : ℝ) ≤ 1 - cb ^ 2 := by nlinarith
  have h1cg : (0 : ℝ) ≤ 1 - cg ^ 2 := by nlinarith
  set sb : ℝ := Real.sqrt (1 - cb ^ 2) with hsbdef
  set sg : ℝ := Real.sqrt (1 - cg ^ 2) with hsgdef
  have hsb2 : sb ^ 2 = 1 - cb ^ 2 := Real.sq_sqrt h1cb
  have hcosb : Real.cos (Real.arccos cb) = cb := Real.cos_arccos hcbm1 hcb1
  have hsinb : Real.sin (Real.arccos cb) = sb := Real.sin_arccos cb
  have hcosg : Real.cos (Real.arccos cg) = cg := Real.cos_arccos hcgm1 hcg1
  have hsing : Real.sin (Real.arccos cg) = sg := Real.sin_arccos cg
  -- the complex argument giving atan2
  have habs : Complex.abs ⟨dx, dy⟩ = d := by
    rw [hd, Complex.abs_apply, Complex.normSq_mk]
  have hz0 : (⟨dx, dy⟩ : ℂ) ≠ 0 := by
    intro h0
    rw [h0] at habs
    simp at habs
    linarith
  have hca : Real.cos (atan2 dy dx) = dx / d := by
    unfold atan2
    rw [Complex.cos_arg hz0, habs]
  have hsa : Real.sin (atan2 dy dx) = dy / d := by
    unfold atan2
    rw [Complex.sin_arg, habs]
  have hdxca : d * Real.cos (atan2 dy dx) = dx := by
    rw [hca]
    field_simp
  have hdysa : d * Real.sin (atan2 dy dx) = dy := by
    rw [hsa]
    field_simp
  -- law-of-cosines identities
  have hK1 : (280 : ℝ) - 260 * cg = d * cb := by
    rw [hcbdef, hcgdef]
    field_simp
    ring
  have hK2 : (260 : ℝ) * sg = d * sb := by
    have hsq : 67600 * (1 - cg ^ 2) = d ^ 2 * (1 - cb ^ 2) := by
      rw [hcbdef, hcgdef]
      field_simp
      ring
    have e1 : (260 : ℝ) * sg = Real.sqrt (67600 * (1 - cg ^ 2)) := by
      rw [Real.sqrt_mul (by norm_num : (0:ℝ) ≤ 67600), hsgdef,
        show (67600 : ℝ) = 260 ^ 2 by norm_num, Real.sqrt_sq (by norm_num : (0:ℝ) ≤ 260)]
    have e2 : d * sb = Real.sqrt (d ^ 2 * (1 - cb ^ 2)) := by
      rw [Real.sqrt_mul (sq_nonneg d), hsbdef, Real.sqrt_sq (le_of_lt hdpos)]
    rw [e1, e2, hsq]
  -- unfold the angle pair and expand the trigonometry
  have ht1 : (ikAngles dx dy d).1 = atan2 dy dx - Real.arccos (cosBetaClamped d) := rfl
  have ht2 : (ikAngles dx dy d).2 = π - Real.arccos (cosGammaClamped d) := rfl
  rw [ht1, ht2, cosBetaClamped_eq h20 h538, cosGammaClamped_eq h20 h538, ← hcbdef, ← hcgdef]
  constructor
  · rw [Real.cos_add, Real.cos_pi_sub, Real.sin_pi_sub, Real.cos_sub, Real.sin_sub,
      hcosb, hsinb, hcosg, hsing]
    unfold armL1 armL2
    linear_combination (Real.cos (atan2 dy dx) * cb + Real.sin (atan2 dy dx) * sb) * hK1
      + (Real.cos (atan2 dy dx) * sb - Real.sin (atan2 dy dx) * cb) * hK2
      + (d * Real.cos (atan2 dy dx)) * hsb2 + hdxca
  · rw [Real.sin_add, Real.cos_pi_sub, Real.sin_pi_sub, Real.cos_sub, Real.sin_sub,
      hcosb, hsinb, hcosg, hsing]
    unfold armL1 armL2
    linear_combination (Real.sin (atan2 dy dx) * cb - Real.cos (atan2 dy dx) * sb) * hK1
      + (Real.cos (atan2 dy dx) * cb + Real.sin (atan2 dy dx) * sb) * hK2
      + (d * Real.sin (atan2 dy dx)) * hsb2 + hdysa

theorem ikAngles_bounds (dx dy dist : ℝ) :
    |(ikAngles dx dy dist).1| ≤ 2 * π ∧
    0 ≤ (ikAngles dx dy dist).2 ∧ (ikAngles dx dy dist).2 ≤ π := by
  have harg : |atan2 dy dx| ≤ π :=
    abs_le.mpr ⟨le_of_lt (Complex.neg_pi_lt_arg _), Complex.arg_le_pi _⟩
  have hac1 : 0 ≤ Real.arccos (cosBetaClamped dist) := Real.arccos_nonneg _
  have hac2 : Real.arccos (cosBetaClamped dist) ≤ π := Real.arccos_le_pi _
  have hag1 : 0 ≤ Real.arccos (cosGammaClamped dist) := Real.arccos_nonneg _
  have hag2 : Real.arccos (cosGammaClamped dist) ≤ π := Real.arccos_le_pi _
  refine ⟨?_, ?_, ?_⟩
  · have htr : |atan2 dy dx - Real.arccos (cosBetaClamped dist)|
        ≤ |atan2 dy dx| + |Real.arccos (cosBetaClamped dist)| := abs_sub _ _
    have habs2 : |Real.arccos (cosBetaClamped dist)| = Real.arccos (cosBetaClamped dist) :=
      abs_of_nonneg hac1
    show |atan2 dy dx - Real.arccos (cosBetaClamped dist)| ≤ 2 * π
    rw [habs2] at htr
    linarith
  · show 0 ≤ π - Real.arccos (cosGammaClamped dist)
    linarith
  · show π - Real.arccos (cosGammaClamped dist) ≤ π
    linarith

/-! ### C2 / C8 claim theorems -/

/-- Claim C2 counterexample: the target `(510, 800)` lies 10 px from the arm
base `(500, 800)` — well within the maximum reach — yet forward
kinematics of the solved angles lands at `(520, 800)`, 10 px from the
target and far beyond a `1e-3` tolerance.  (For any distance below
`l1 − l2 = 20` both law-of-cosines arguments exceed 1 and are clamped,
so the solver can only place the end-effector on the inner workspace
circle of radius 20.) -/
theorem solveIK_roundTrip_fails_near_base :
    rawDist 1000 800 510 800 = 10 ∧
    fk 1000 800 (solveIK 1000 800 510 800).1 (solveIK 1000 800 510 800).2 = (520, 800) ∧
    ¬ (|(520 : ℝ) - 510| ≤ 1e-3) := by
  have hsq : Real.sqrt (((510 : ℝ) - 1000 / 2) * ((510 : ℝ) - 1000 / 2)
      + ((800 : ℝ) - 800) * ((800 : ℝ) - 800)) = 10 := by
    rw [show ((510 : ℝ) - 1000 / 2) * ((510 : ℝ) - 1000 / 2)
        + ((800 : ℝ) - 800) * ((800 : ℝ) - 800) = 10 ^ 2 by norm_num]
    exact Real.sqrt_sq (by norm_num)
  refine ⟨hsq, ?_, by norm_num⟩
  have hbranch : solveIK 1000 800 510 800 = ikAngles 10 0 10 := by
    rw [solveIK_eq]
    rw [show ((510 : ℝ) - 1000 / 2) = 10 by norm_num, show ((800 : ℝ) - 800) = 0 by norm_num]
      at hsq ⊢
    rw [hsq, if_neg (by rw [maxReach_val]; norm_num)]
  have hcb : cosBetaClamped 10 = 1 := by
    unfold cosBetaClamped clamp armL1 armL2
    rw [if_neg (by norm_num : (10 : ℝ) ≠ 0)]
    rw [min_eq_left (by norm_num), max_eq_right (by norm_num)]
  have hcg : cosGammaClamped 10 = 1 := by
    unfold cosGammaClamped clamp armL1 armL2
    rw [min_eq_left (by norm_num), max_eq_right (by norm_num)]
  have hatan : atan2 0 10 = 0 := by
    unfold atan2
    exact Complex.arg_ofReal_of_nonneg (by norm_num)
  have hangles : ikAngles 10 0 10 = (0, π) := by
    unfold ikAngles
    rw [hcb, hcg, hatan, Real.arccos_one]
    norm_num
  rw [hbranch, hangles]
  unfold fk armL1 armL2
  rw [Prod.mk.injEq]
  constructor
  · rw [Real.cos_zero, zero_add, Real.cos_pi]
    norm_num
  · rw [Real.sin_zero, zero_add, Real.sin_pi]
    norm_num

/-- Claim C2 (amended): the IK round-trip is exact for every target whose
distance `d` from the base satisfies `l1 − l2 = 20 ≤ d ≤ l1 + l2 − 2 =
538` (the code clamps at `maxReach = l1 + l2 − 2`, not at `l1 + l2`, and
targets closer than 20 px hit the acos clamps); and for `d > 538` the
solved angles place the end-effector exactly on the reach circle of
radius 538 in the direction of the target. -/
theorem solveIK_roundTrip (width height tx ty : ℝ) :
    (20 ≤ rawDist width height tx ty → rawDist width height tx ty ≤ 538 →
      fk width height (solveIK width height tx ty).1 (solveIK width height tx ty).2
        = (tx, ty)) ∧
    (538 < rawDist width height tx ty →
      fk width height (solveIK width height tx ty).1 (solveIK width height tx ty).2
        = (width / 2 + (tx - width / 2) * (538 / rawDist width height tx ty),
           height + (ty - height) * (538 / rawDist width height tx ty)) ∧
      rawDist width height
          (width / 2 + (tx - width / 2) * (538 / rawDist width height tx ty))
          (height + (ty - height) * (538 / rawDist width height tx ty)) = 538) := by
  set dx : ℝ := tx - width / 2 with hdx
  set dy : ℝ := ty - height with hdy
  set d : ℝ := rawDist width height tx ty with hddef
  have hdval : d = Real.sqrt (dx * dx + dy * dy) := rfl
  constructor
  · intro h20 h538
    have hbranch : solveIK width height tx ty = ikAngles dx dy d := by
      rw [solveIK_eq, ← hdval, if_neg (by rw [maxReach_val]; exact not_lt.mpr h538)]
    have key := ikAngles_fk dx dy d hdval h20 h538
    rw [hbranch]
    unfold fk
    rw [Prod.mk.injEq]
    constructor
    · linear_combination key.1 + hdx
    · linear_combination key.2 + hdy
  · intro hgt
    have hdpos : (0 : ℝ) < d := by linarith
    have hd0 : d ≠ 0 := ne_of_gt hdpos
    have hnn : (0 : ℝ) ≤ dx * dx + dy * dy :=
      add_nonneg (mul_self_nonneg dx) (mul_self_nonneg dy)
    have hsum : dx * dx + dy * dy = d ^ 2 := by
      rw [hdval, Real.sq_sqrt hnn]
    set dx' : ℝ := dx * (538 / d) with hdx'
    set dy' : ℝ := dy * (538 / d) with hdy'
    have hsum' : dx' * dx' + dy' * dy' = 538 ^ 2 := by
      rw [hdx', hdy']
      field_simp
      nlinarith [hsum]
    have hd538 : (538 : ℝ) = Real.sqrt (dx' * dx' + dy' * dy') := by
      rw [hsum', Real.sqrt_sq (by norm_num : (0:ℝ) ≤ 538)]
    have hbranch : solveIK width height tx ty = ikAngles dx' dy' 538 := by
      rw [solveIK_eq, ← hdval, if_pos (by rw [maxReach_val]; exact hgt), maxReach_val]
    have key := ikAngles_fk dx' dy' 538 hd538 (by norm_num) (by norm_num)
    constructor
    · rw [hbranch]
      unfold fk
      rw [Prod.mk.injEq]
      constructor
      · linear_combination key.1
      · linear_combination key.2
    · show Real.sqrt ((width / 2 + dx' - width / 2) * (width / 2 + dx' - width / 2)
          + (height + dy' - height) * (height + dy' - height)) = 538
      rw [show width / 2 + dx' - width / 2 = dx' by ring,
        show height + dy' - height = dy' by ring, hsum',
        Real.sqrt_sq (by norm_num : (0:ℝ) ≤ 538)]

theorem solveIK_roundTrip_witness :
    fk 1000 800 (solveIK 1000 800 800 800).1 (solveIK 1000 800 800 800).2 = (800, 800) ∧
    fk 1000 800 (solveIK 1000 800 500 100).1 (solveIK 1000 800 500 100).2
      = (1000 / 2 + (500 - 1000 / 2) * (538 / rawDist 1000 800 500 100),
         800 + (100 - 800) * (538 / rawDist 1000 800 500 100)) := by
  have h1 : rawDist 1000 800 800 800 = 300 := by
    unfold rawDist
    rw [show ((800 : ℝ) - 1000 / 2) * ((800 : ℝ) - 1000 / 2)
        + ((800 : ℝ) - 800) * ((800 : ℝ) - 800) = 300 ^ 2 by norm_num]
    exact Real.sqrt_sq (by norm_num)
  have h2 : rawDist 1000 800 500 100 = 700 := by
    unfold rawDist
    rw [show ((500 : ℝ) - 1000 / 2) * ((500 : ℝ) - 1000 / 2)
        + ((100 : ℝ) - 800) * ((100 : ℝ) - 800) = 700 ^ 2 by norm_num]
    exact Real.sqrt_sq (by norm_num)
  exact ⟨(solveIK_roundTrip 1000 800 800 800).1 (by rw [h1]; norm_num) (by rw [h1]; norm_num),
    ((solveIK_roundTrip 1000 800 500 100).2 (by rw [h2]; norm_num)).1⟩

/-- Claim C8 counterexample: for a target coinciding with the arm base, the
distance reaching the law-of-cosines formulas is exactly 0 — no epsilon
floor is applied to it.  (The zero-distance case is instead absorbed by
the `[-1,1]` clamp: the JavaScript division produces `+∞`, which the
clamp maps to 1, `cosBetaClamped 0 = 1`.) -/
theorem solveIK_no_eps_floor :
    distUsed 1000 800 500 800 = 0 ∧ cosBetaClamped 0 = 1 := by
  constructor
  · rw [distUsed_eq]
    rw [show ((500 : ℝ) - 1000 / 2) * ((500 : ℝ) - 1000 / 2)
        + ((800 : ℝ) - 800) * ((800 : ℝ) - 800) = 0 by norm_num, Real.sqrt_zero,
      if_neg (by rw [maxReach_val]; norm_num)]
  · unfold cosBetaClamped
    rw [if_pos rfl]

/-- Claim C8 (amended): every cosine argument reaching `acos` lies in `[-1,1]`
— the clamp guarantees this for every distance, including the
zero-distance case, where the JavaScript division yields `+∞` and the
clamp maps it to 1 (there is no epsilon floor on the distance) — and
consequently the solver always returns well-defined bounded angles:
`|θ1| ≤ 2π` and `θ2 ∈ [0, π]`. -/
theorem solveIK_angles_defined (dist w h tx ty : ℝ) :
    -1 ≤ cosBetaClamped dist ∧ cosBetaClamped dist ≤ 1 ∧
    -1 ≤ cosGammaClamped dist ∧ cosGammaClamped dist ≤ 1 ∧
    |(solveIK w h tx ty).1| ≤ 2 * π ∧
    0 ≤ (solveIK w h tx ty).2 ∧ (solveIK w h tx ty).2 ≤ π := by
  have hbeta : -1 ≤ cosBetaClamped dist ∧ cosBetaClamped dist ≤ 1 := by
    unfold cosBetaClamped
    split_ifs with hd
    · norm_num
    · exact ⟨le_clamp _ _ _, clamp_le (by norm_num)⟩
  have hgamma : -1 ≤ cosGammaClamped dist ∧ cosGammaClamped dist ≤ 1 :=
    ⟨le_clamp _ _ _, clamp_le (by norm_num)⟩
  have hangles : |(solveIK w h tx ty).1| ≤ 2 * π ∧
      0 ≤ (solveIK w h tx ty).2 ∧ (solveIK w h tx ty).2 ≤ π := by
    rw [solveIK_eq]
    split_ifs with hc
    · exact ikAngles_bounds _ _ _
    · exact ikAngles_bounds _ _ _
  exact ⟨hbeta.1, hbeta.2, hgamma.1, hgamma.2, hangles.1, hangles.2.1, hangles.2.2⟩

theorem resetEpisode_reinit_witness :
    (resetEpisode (1/2) (1/2) (1/2) p0).ball.active = true ∧
    (resetEpisode (1/2) (1/2) (1/2) p0).ball.y = -40 ∧
    (resetEpisode (1/2) (1/2) (1/2) p0).targetX = 0 :=
  ⟨(resetEpisode_reinit (1/2) (1/2) (1/2) p0).1,
   ((resetEpisode_reinit (1/2) (1/2) (1/2) p0).2.2.2 rfl rfl).1,
   ((resetEpisode_reinit (1/2) (1/2) (1/2) p0).2.2.2 rfl rfl).2⟩

end Portfolio
